import Mathlib

/-!
Shallow embedding of the mytube-backend core (challenge-based request
authentication, entitlement resolution, free-trial provisioning, and the
Apple/Google purchase-webhook reconcilers) together with theorems settling
the specification claims.

The persistence layer (Prisma) is modelled as explicit state passing over a
`DB` record of lists; `findFirst` with a descending order-by is modelled as
picking a maximal element, `upsert` as update-or-append.  External
collaborators (base64/JSON decoding, the Apple payload decoder, the Google
subscriptions API, SHA-256, Schnorr signature checks, bech32 encoding) are
modelled as already-decoded inputs or boolean fields on the inputs, exactly
at the point where the source hands data to them.
-/

namespace MyTube

/-- JavaScript truthiness for an optional string: `undefined`/`null` and the
empty string are falsy, every other string is truthy. -/
def jsTruthyS : Option String → Bool
  | none => false
  | some s => s ≠ ""

/-- Substring search on character lists, the semantics of
`String.prototype.includes`. -/
def listIncludes (pat : List Char) : List Char → Bool
  | [] => pat.isEmpty
  | c :: rest => List.isPrefixOf pat (c :: rest) || listIncludes pat rest

/-- Embedding of `s.toLowerCase()` as a character list (ASCII lowering, the case the
product ids exercise). -/
def toLowerChars (s : String) : List Char :=
  s.data.map Char.toLower

/-- Embedding of `s.toUpperCase()` as a character list. -/
def toUpperChars (s : String) : List Char :=
  s.data.map Char.toUpper

/-- Embedding of `s.toLowerCase().includes(pat)`. -/
def lowerIncludes (s pat : String) : Bool :=
  listIncludes pat.data (toLowerChars s)

/-- Embedding of `planToQuota` (subscriptions module, lines 187-195): case-insensitive
substring tiering of a product id into a byte quota. -/
def planToQuota (productId : String) : Nat :=
  if lowerIncludes productId "pro" then 200 * 1024 * 1024 * 1024
  else if lowerIncludes productId "ultra" then 500 * 1024 * 1024 * 1024
  else 50 * 1024 * 1024 * 1024

/-- The entitlement status enumeration of the data model. -/
def statusEnum : List String :=
  ["active", "grace", "paused", "canceled", "expired", "pending"]

/-- One `Entitlement` row.  `expiresAt` is epoch milliseconds. -/
structure Entitlement where
  id : String
  npub : String
  platform : String
  productId : String
  status : String
  expiresAt : Int
  quotaBytes : Nat
  purchaseToken : Option String
  originalTxId : Option String
deriving DecidableEq

/-- One `ApplePurchase` mapping row.  `npub` is `NOT NULL` in the schema. -/
structure ApplePurchase where
  originalTxId : String
  appAccountToken : Option String
  npub : String
deriving DecidableEq

/-- One `GooglePurchase` mapping row.  `npub` is `NOT NULL` in the schema. -/
structure GooglePurchase where
  purchaseToken : String
  packageName : String
  subscriptionId : String
  npub : String
deriving DecidableEq

/-- One `Usage` row. -/
structure Usage where
  npub : String
  storedBytes : Int
  egressBytesMon : Int
deriving DecidableEq

/-- One `Upload` row. -/
structure Upload where
  npub : String
  objectKey : String
  status : String
  sizeBytes : Int
  contentType : String
deriving DecidableEq

/-- The transactional store, one list per table. -/
structure DB where
  users : List String
  entitlements : List Entitlement
  applePurchases : List ApplePurchase
  googlePurchases : List GooglePurchase
  uploads : List Upload
  usages : List Usage
deriving DecidableEq

/-- The empty database. -/
def dbEmpty : DB :=
  { users := [], entitlements := [], applePurchases := [], googlePurchases := []
  , uploads := [], usages := [] }

/-- Embedding of `prisma.user.upsert` with an empty update: insert the user if absent. -/
def ensureUserExists (npub : String) (db : DB) : DB :=
  if db.users.contains npub then db else { db with users := db.users ++ [npub] }

/-- Embedding of `prisma.entitlement.update` on the trial id: set `status` on the row
with that id. -/
def setTrialStatus (trialId newStatus : String) (ents : List Entitlement) :
    List Entitlement :=
  ents.map fun e => if e.id == trialId then { e with status := newStatus } else e

/-- Embedding of `ensureFreeTrialEntitlement` (subscriptions module, lines 277-317):
idempotent trial provisioning.  Absent: create an active trial with the
deterministic id.  Present and lapsed: mark expired.  Present, unexpired but
not active: reactivate.  Otherwise return unchanged. -/
def ensureFreeTrialEntitlement (trialDays : Nat) (npub : String) (now : Int)
    (db : DB) : Entitlement × DB :=
  let trialId := npub ++ "-trial"
  let existing := db.entitlements.find? fun e => e.id == trialId
  let durationMs : Int := (trialDays : Int) * 24 * 60 * 60 * 1000
  let expiresAt := now + durationMs
  match existing with
  | none =>
      let created : Entitlement :=
        { id := trialId, npub := npub, platform := "trial", productId := "trial"
        , status := "active", expiresAt := expiresAt
        , quotaBytes := planToQuota "trial"
        , purchaseToken := none, originalTxId := none }
      (created, { db with entitlements := db.entitlements ++ [created] })
  | some existingEnt =>
      if existingEnt.expiresAt ≤ now ∧ existingEnt.status ≠ "expired" then
        ({ existingEnt with status := "expired" },
          { db with entitlements := setTrialStatus trialId "expired" db.entitlements })
      else if now < existingEnt.expiresAt ∧ existingEnt.status ≠ "active" then
        ({ existingEnt with status := "active" },
          { db with entitlements := setTrialStatus trialId "active" db.entitlements })
      else (existingEnt, db)

/-- Embedding of `['active', 'grace'].includes s`. -/
def isActiveOrGrace (s : String) : Bool :=
  s == "active" || s == "grace"

/-- The `where` filter of the first resolver query: same identity, status
active or grace, expiry strictly in the future. -/
def activeFilter (npub : String) (now : Int) (e : Entitlement) : Bool :=
  e.npub == npub && isActiveOrGrace e.status && decide (now < e.expiresAt)

/-- Embedding of `findFirst` with `orderBy expiresAt desc`: the earliest-listed row with
maximal `expiresAt`, or none on an empty result. -/
def maxByExpires : List Entitlement → Option Entitlement
  | [] => none
  | e :: rest =>
      match maxByExpires rest with
      | none => some e
      | some m => if e.expiresAt < m.expiresAt then some m else some e

/-- Embedding of `getEntitlementForNpub` (subscriptions module, lines 25-54): prefer an
unexpired active/grace entitlement with latest expiry; else, when the trial
policy is enabled, provision the trial and return it if it qualifies; else
fall back to the most recent entitlement of any status. -/
def getEntitlementForNpub (trialEnabled : Bool) (trialDays : Nat)
    (npub : String) (now : Int) (db : DB) : Option Entitlement × DB :=
  match maxByExpires (db.entitlements.filter (activeFilter npub now)) with
  | some active => (some active, db)
  | none =>
      let step : Option Entitlement × DB :=
        if trialEnabled then
          let r := ensureFreeTrialEntitlement trialDays npub now db
          if now < r.1.expiresAt ∧ isActiveOrGrace r.1.status then (some r.1, r.2)
          else (none, r.2)
        else (none, db)
      match step with
      | (some t, db1) => (some t, db1)
      | (none, db1) =>
          (maxByExpires (db1.entitlements.filter fun e => e.npub == npub), db1)

/-! ### Challenge store and request authenticator (nip98 module) -/

/-- The in-memory challenge map: token to expiry (epoch seconds). -/
abbrev ChallengeStore := List (String × Int)

/-- Embedding of `challenges.get token`. -/
def storeGet (store : ChallengeStore) (c : String) : Option Int :=
  (store.find? fun p => p.1 == c).map (·.2)

/-- Embedding of `challenges.delete token` (a `Map` holds one entry per key). -/
def storeDelete (store : ChallengeStore) (c : String) : ChallengeStore :=
  store.filter fun p => p.1 ≠ c

/-- Embedding of `challenges.set challenge exp` in the `/auth/challenge` route: insert
the freshly issued token with `exp = now + ttl`. -/
def issueChallenge (token : String) (now ttl : Int) (store : ChallengeStore) :
    ChallengeStore :=
  storeDelete store token ++ [(token, now + ttl)]

/-- The signed event carried in the authorization header, after the external
base64/JSON decode and the query-string parse of `content`:
`params` is the entry list of `Object.fromEntries(new URLSearchParams(content))`
(empty when `content` is not a string), and `sigValid` is the verdict of the
external `verifyEvent` signature check. -/
structure Nip98Event where
  pubkey : String
  params : List (String × String)
  sigValid : Bool
deriving DecidableEq

/-- One inbound request as the authenticator sees it.  `event` is `none`
when the header is missing, lacks the scheme marker, or fails to decode;
`bodySha256` is the hex SHA-256 of the canonical body bytes, `none` when
the body cannot be serialized. -/
structure Nip98Request where
  event : Option Nip98Event
  method : String
  routeUrl : String
  bodySha256 : Option String
deriving DecidableEq

/-- Embedding of `params[k]` on the parsed content map. -/
def getParam (ps : List (String × String)) (k : String) : Option String :=
  (ps.find? fun p => p.1 == k).map (·.2)

/-- The stable identity encoding of a public key (`nip19.npubEncode`,
external bech32 encoder abstracted as a tagged embedding). -/
def npubEncode (pubkey : String) : String :=
  "npub1" ++ pubkey

/-- The challenge value a request presents, if any. -/
def challengeParamOf (req : Nip98Request) : Option String :=
  req.event.bind fun ev => getParam ev.params "challenge"

/-- Embedding of `verifyNip98` (nip98 module, lines 18-64).  Every failing step returns
`none` with the store unchanged, except that a challenge found past its
expiry is evicted; success consumes the challenge and returns the encoded
identity. -/
def verifyNip98 (now : Int) (req : Nip98Request) (challenges : ChallengeStore) :
    Option String × ChallengeStore :=
  match req.event with
  | none => (none, challenges)
  | some event =>
    match getParam event.params "challenge" with
    | none => (none, challenges)
    | some challenge =>
      if challenge = "" then (none, challenges) else
      match storeGet challenges challenge with
      | none => (none, challenges)
      | some exp =>
        if exp < now then (none, storeDelete challenges challenge) else
        if toUpperChars ((getParam event.params "method").getD "") ≠
            req.method.data then
          (none, challenges) else
        if jsTruthyS (getParam event.params "url") ∧
            (getParam event.params "url").getD "" ≠ req.routeUrl then
          (none, challenges) else
        if jsTruthyS (getParam event.params "body") ∧
            (req.bodySha256 = none ∨
              req.bodySha256 ≠ some ((getParam event.params "body").getD "")) then
          (none, challenges) else
        if event.sigValid = false then (none, challenges) else
        (some (npubEncode event.pubkey), storeDelete challenges challenge)

/-! ### Server route handlers (server module) -/

/-- The JSON body of `GET /entitlement`. -/
structure EntitlementResponse where
  plan : Option String
  status : String
  expiresAt : Option Int
  quotaBytes : String
  usedBytes : String
deriving DecidableEq

/-- The `GET /entitlement` handler after authentication (server module,
lines 72-92): upsert the user, resolve the entitlement, read usage, and
shape the response with `none` defaults. -/
def entitlementHandler (trialEnabled : Bool) (trialDays : Nat) (npub : String)
    (now : Int) (db : DB) : EntitlementResponse × DB :=
  let db1 := ensureUserExists npub db
  let r := getEntitlementForNpub trialEnabled trialDays npub now db1
  let usage := r.2.usages.find? fun u => u.npub == npub
  ({ plan := r.1.map (·.productId)
   , status := (r.1.map (·.status)).getD "none"
   , expiresAt := r.1.map (·.expiresAt)
   , quotaBytes := (r.1.map fun e => toString e.quotaBytes).getD "0"
   , usedBytes := (usage.map fun u => toString u.storedBytes).getD "0" }, r.2)

/-- Outcome of `POST /presign/upload` after authentication. -/
inductive PresignResult where
  | badRequest (msg : String)
  | paymentRequired (msg : String)
  | ok (key : String)
deriving DecidableEq

/-- Whether a presign outcome carries a presigned upload. -/
def PresignResult.isAccepted : PresignResult → Bool
  | .ok _ => true
  | _ => false

/-- The statuses the presign gate turns away. -/
def rejectedStatuses : List String :=
  ["expired", "canceled", "paused"]

/-- Embedding of `!entitlement || ['expired', 'canceled', 'paused'].includes(entitlement.status)`. -/
def presignRejects (ent : Option Entitlement) : Bool :=
  match ent with
  | none => true
  | some e => rejectedStatuses.contains e.status

/-- Embedding of `prisma.usage.upsert` of the presign route: increment `storedBytes` or
create the counter row. -/
def upsertUsage (npub : String) (add : Int) (db : DB) : DB :=
  if db.usages.any (fun u => u.npub == npub) then
    { db with usages := db.usages.map fun u =>
        if u.npub == npub then { u with storedBytes := u.storedBytes + add } else u }
  else
    { db with usages := db.usages ++
        [{ npub := npub, storedBytes := add, egressBytesMon := 0 }] }

/-- The `POST /presign/upload` handler after authentication (server module,
lines 100-139): validate the body, gate on the resolved entitlement, then
record the pending upload, bump usage, and answer with the object key (the
external S3 presigner is abstracted away). -/
def presignUploadHandler (trialEnabled : Bool) (trialDays : Nat) (npub : String)
    (filename contentType : Option String) (sizeBytes : Option Int)
    (now : Int) (db : DB) : PresignResult × DB :=
  if ¬ jsTruthyS filename ∨ ¬ jsTruthyS contentType ∨ sizeBytes = none then
    (.badRequest "filename, content_type, and size_bytes are required", db)
  else
    let r := getEntitlementForNpub trialEnabled trialDays npub now db
    if presignRejects r.1 then
      (.paymentRequired "No active subscription", r.2)
    else
      let key := "videos/" ++ npub ++ "/" ++ toString now ++ "/" ++ filename.getD ""
      let db2 := { r.2 with uploads := r.2.uploads ++
        [{ npub := npub, objectKey := key, status := "pending"
         , sizeBytes := sizeBytes.getD 0, contentType := contentType.getD "" }] }
      (.ok key, upsertUsage npub (sizeBytes.getD 0) db2)

/-! ### Apple reconciler (subscriptions module) -/

/-- The Apple notification types the status mapper distinguishes.
`OtherType` stands for every unrecognized value of the provider enum. -/
inductive AppleType where
  | DidRenew | Subscribed | Expired | GracePeriodExpired
  | DidFailToRenew | Refund | RefundDeclined | RefundReversed
  | PriceIncrease | RenewalExtension | RenewalExtended
  | DidChangeRenewalStatus | DidChangeRenewalPref
  | OtherType
deriving DecidableEq

/-- Embedding of `mapAppleStatus` (subscriptions module, lines 155-177): notification
type to entitlement status, defaulting to `active`. -/
def mapAppleStatus : Option AppleType → String
  | some .DidRenew | some .Subscribed => "active"
  | some .Expired => "expired"
  | some .GracePeriodExpired => "paused"
  | some .DidFailToRenew | some .Refund | some .RefundDeclined
  | some .RefundReversed | some .PriceIncrease | some .RenewalExtension
  | some .RenewalExtended | some .DidChangeRenewalStatus
  | some .DidChangeRenewalPref => "canceled"
  | _ => "active"

/-- The decoded embedded transaction of an Apple notification
(`decodeTransaction` output fields the reconciler reads). -/
structure AppleTransactionInfo where
  originalTransactionId : String
  productId : String
  expiresDate : Int
  appAccountToken : Option String
deriving DecidableEq

/-- The decoded outer Apple notification (`decodeNotificationPayload`
output): its type and, when present, the embedded transaction info. -/
structure AppleDecoded where
  notificationType : Option AppleType
  transactionInfo : Option AppleTransactionInfo
deriving DecidableEq

/-- The raw Apple webhook body. -/
structure AppleBody where
  signedPayload : Option String
deriving DecidableEq

/-- Embedding of `findNpubByOriginalTxIdOrAccountToken` (lines 213-227): resolve the
identity by original transaction id, then by app-account token. -/
def findNpubByOriginalTxIdOrAccountToken (originalTxId : String)
    (appAccountToken : Option String) (db : DB) : Option String :=
  match db.applePurchases.find? (fun r => r.originalTxId == originalTxId) with
  | some existingByTx => some existingByTx.npub
  | none =>
    if jsTruthyS appAccountToken then
      (db.applePurchases.find? fun r =>
        r.appAccountToken == appAccountToken).map (·.npub)
    else none

/-- Embedding of `upsertApplePurchaseMapping` (lines 236-251): a no-op without an
identity (the schema requires `npub`), else update-or-create the mapping
row keyed by the original transaction id. -/
def upsertApplePurchaseMapping (originalTxId : String)
    (appAccountToken : Option String) (npub : Option String) (db : DB) : DB :=
  match npub with
  | none => db
  | some n =>
    if db.applePurchases.any (fun r => r.originalTxId == originalTxId) then
      { db with applePurchases := db.applePurchases.map fun r =>
          if r.originalTxId == originalTxId then
            { r with appAccountToken := appAccountToken, npub := n }
          else r }
    else
      { db with applePurchases := db.applePurchases ++
          [{ originalTxId := originalTxId, appAccountToken := appAccountToken
           , npub := n }] }

/-- Embedding of `prisma.entitlement.upsert` keyed by `(npub, productId)`: map the
matching row through `updated`, or append `created`. -/
def upsertEntitlementRow (npub productId : String)
    (updated : Entitlement → Entitlement) (created : Entitlement)
    (ents : List Entitlement) : List Entitlement :=
  if ents.any (fun e => e.npub == npub && e.productId == productId) then
    ents.map fun e =>
      if e.npub == npub && e.productId == productId then updated e else e
  else ents ++ [created]

/-- Embedding of `upsertAppleNotification` (lines 56-105).  The result pairs the final
database with the error message of a thrown exception, when one is raised.
`decoded` is the externally decoded payload of `signedPayload`; `genId` is
the id the store generates for a newly created entitlement row. -/
def upsertAppleNotification (body : AppleBody) (decoded : AppleDecoded)
    (genId : String) (db : DB) : DB × Option String :=
  if ¬ jsTruthyS body.signedPayload then
    (db, some "Missing signedPayload from Apple notification.")
  else
    match decoded.transactionInfo with
    | none => (db, none)
    | some txInfo =>
      let originalTransactionId := txInfo.originalTransactionId
      let productId := txInfo.productId
      let appAccountToken := txInfo.appAccountToken
      match findNpubByOriginalTxIdOrAccountToken originalTransactionId
          appAccountToken db with
      | none =>
        (upsertApplePurchaseMapping originalTransactionId appAccountToken none db,
         none)
      | some npub =>
        let db1 := ensureUserExists npub db
        let status := mapAppleStatus decoded.notificationType
        let quota := planToQuota productId
        let updatedRow : Entitlement → Entitlement := fun e =>
          { e with
            platform := "ios"
            productId := productId
            originalTxId := some originalTransactionId
            status := status
            expiresAt := txInfo.expiresDate
            quotaBytes := quota }
        let createdRow : Entitlement :=
          { id := genId
            npub := npub
            platform := "ios"
            productId := productId
            originalTxId := some originalTransactionId
            status := status
            expiresAt := txInfo.expiresDate
            quotaBytes := quota
            purchaseToken := none }
        let newEnts :=
          upsertEntitlementRow npub productId updatedRow createdRow db1.entitlements
        let db2 := { db1 with entitlements := newEnts }
        (upsertApplePurchaseMapping originalTransactionId appAccountToken
          (some npub) db2, none)

/-! ### Google reconciler (subscriptions module) -/

/-- The Google service-account configuration slice the reconciler reads. -/
structure GoogleConfig where
  clientEmail : Option String
  privateKey : Option String
deriving DecidableEq

/-- Embedding of `createGoogleAuth` returns a client exactly when both credential fields
are truthy (lines 13-23). -/
def googleAuthConfigured (cfg : GoogleConfig) : Bool :=
  jsTruthyS cfg.clientEmail && jsTruthyS cfg.privateKey

/-- The fields of the queried Google subscription resource the status
mapper reads. -/
structure GoogleSubData where
  cancelReason : Option Int
  paymentState : Option Int
  expiryTimeMillis : Option Int
deriving DecidableEq

/-- The raw Google webhook body. -/
structure GoogleBody where
  packageName : Option String
  subscriptionId : Option String
  purchaseToken : Option String
deriving DecidableEq

/-- Embedding of `mapGoogleStatus` (lines 179-185): cancel reason wins, then pending and
paid payment states, then an already-past (and truthy) expiry, else active. -/
def mapGoogleStatus (data : GoogleSubData) (now : Int) : String :=
  if data.cancelReason.isSome then "canceled"
  else if data.paymentState = some 0 then "pending"
  else if data.paymentState = some 1 ∨ data.paymentState = some 2 then "active"
  else
    match data.expiryTimeMillis with
    | some t => if t ≠ 0 ∧ t < now then "expired" else "active"
    | none => "active"

/-- Embedding of `findNpubByPurchaseToken` (lines 229-234). -/
def findNpubByPurchaseToken (purchaseToken : String) (db : DB) : Option String :=
  (db.googlePurchases.find? fun r => r.purchaseToken == purchaseToken).map (·.npub)

/-- Embedding of `upsertGooglePurchaseMapping` (lines 253-275): a no-op without an
identity (the schema requires `npub`), else update-or-create the mapping
row keyed by the purchase token. -/
def upsertGooglePurchaseMapping (purchaseToken packageName subscriptionId : String)
    (npub : Option String) (db : DB) : DB :=
  match npub with
  | none => db
  | some n =>
    if db.googlePurchases.any (fun r => r.purchaseToken == purchaseToken) then
      { db with googlePurchases := db.googlePurchases.map fun r =>
          if r.purchaseToken == purchaseToken then
            { r with
              npub := n
              packageName := packageName
              subscriptionId := subscriptionId }
          else r }
    else
      { db with googlePurchases := db.googlePurchases ++
          [{ purchaseToken := purchaseToken, npub := n
           , packageName := packageName, subscriptionId := subscriptionId }] }

/-- Embedding of `upsertGoogleNotification` (lines 107-153).  The result pairs the final
database with the error message of a thrown exception, when one is raised.
`data` is the subscription resource returned by the provider's status
endpoint (queried only after the credential check passes); `genId` is the
id the store generates for a newly created entitlement row. -/
def upsertGoogleNotification (cfg : GoogleConfig) (data : GoogleSubData)
    (now : Int) (genId : String) (body : GoogleBody) (db : DB) :
    DB × Option String :=
  if ¬ jsTruthyS body.packageName ∨ ¬ jsTruthyS body.subscriptionId ∨
      ¬ jsTruthyS body.purchaseToken then
    (db, some "Missing Google subscription notification payload values.")
  else if ¬ googleAuthConfigured cfg then
    (db, some "Google Play credentials are not configured.")
  else
    let purchaseToken := body.purchaseToken.getD ""
    let packageName := body.packageName.getD ""
    let subscriptionId := body.subscriptionId.getD ""
    match findNpubByPurchaseToken purchaseToken db with
    | none =>
      (upsertGooglePurchaseMapping purchaseToken packageName subscriptionId
        none db, none)
    | some npub =>
      let db1 := ensureUserExists npub db
      let status := mapGoogleStatus data now
      let expiresAt := data.expiryTimeMillis.getD 0
      let quota := planToQuota subscriptionId
      let updatedRow : Entitlement → Entitlement := fun e =>
        { e with
          platform := "android"
          productId := subscriptionId
          purchaseToken := some purchaseToken
          status := status
          expiresAt := expiresAt
          quotaBytes := quota }
      let createdRow : Entitlement :=
        { id := genId
          npub := npub
          platform := "android"
          productId := subscriptionId
          purchaseToken := some purchaseToken
          status := status
          expiresAt := expiresAt
          quotaBytes := quota
          originalTxId := none }
      let newEnts :=
        upsertEntitlementRow npub subscriptionId updatedRow createdRow
          db1.entitlements
      let db2 := { db1 with entitlements := newEnts }
      (upsertGooglePurchaseMapping purchaseToken packageName subscriptionId
        (some npub) db2, none)

/-! ### Concrete inputs used by witnesses and counterexamples -/

/-- A configured Google service account. -/
def cfgConfigured : GoogleConfig :=
  { clientEmail := some "svc@example.com", privateKey := some "key" }

/-- An unconfigured Google service account. -/
def cfgUnconfigured : GoogleConfig :=
  { clientEmail := none, privateKey := none }

/-- A well-formed Google webhook body whose purchase token is unmapped in
`dbEmpty`. -/
def googleBodyUnmapped : GoogleBody :=
  { packageName := some "com.example.app", subscriptionId := some "pro_monthly"
    purchaseToken := some "tok-123" }

/-- A queried Google subscription in the paid state. -/
def googleDataActive : GoogleSubData :=
  { cancelReason := none, paymentState := some 1, expiryTimeMillis := some 2000 }

/-- An Apple webhook body carrying a signed payload. -/
def appleBodySigned : AppleBody :=
  { signedPayload := some "payload" }

/-- A decoded Apple renewal whose transaction is unmapped in `dbEmpty`. -/
def appleDecodedUnmapped : AppleDecoded :=
  { notificationType := some .DidRenew
    transactionInfo := some
      { originalTransactionId := "otx-1", productId := "pro_monthly"
        expiresDate := 2000, appAccountToken := some "aat-1" } }

/-! ### C4: quota tiering -/

/-- C4 counterexample: the claim demands 500 GiB for every product id
containing "ultra", but `planToQuota` tests "pro" first, so "proultra"
(which contains "ultra") yields the 200 GiB tier. -/
theorem planToQuota_proultra_counterexample :
    lowerIncludes "proultra" "ultra" = true ∧
    planToQuota "proultra" = 214748364800 ∧
    planToQuota "proultra" ≠ 536870912000 := by
  refine ⟨by decide, by decide, by decide⟩

/-- C4 (amended): `planToQuota` is pure and matches case-insensitive
substrings with "pro" taking priority: an id containing "pro" yields
200 GiB; an id containing "ultra" but not "pro" yields 500 GiB; every
other id yields 50 GiB. -/
theorem planToQuota_tiers (productId : String) :
    (lowerIncludes productId "pro" = true →
      planToQuota productId = 214748364800) ∧
    (lowerIncludes productId "pro" = false →
      lowerIncludes productId "ultra" = true →
      planToQuota productId = 536870912000) ∧
    (lowerIncludes productId "pro" = false →
      lowerIncludes productId "ultra" = false →
      planToQuota productId = 53687091200) := by
  refine ⟨fun h => ?_, fun h1 h2 => ?_, fun h1 h2 => ?_⟩ <;>
    simp_all [planToQuota]

/-- C4 witness: the three tiers at concrete product ids. -/
theorem planToQuota_tiers_witness :
    planToQuota "My-PRO-plan" = 214748364800 ∧
    planToQuota "ULTRA9" = 536870912000 ∧
    planToQuota "basic" = 53687091200 :=
  ⟨(planToQuota_tiers "My-PRO-plan").1 (by decide),
   (planToQuota_tiers "ULTRA9").2.1 (by decide) (by decide),
   (planToQuota_tiers "basic").2.2 (by decide) (by decide)⟩

/-! ### C8: Google webhook without credentials -/

/-- C8: when the service-account credentials are not configured, a Google
webhook invocation raises an error (never a silent skip) and leaves the
database — in particular every entitlement and purchase-mapping row —
untouched. -/
theorem google_webhook_requires_credentials (cfg : GoogleConfig)
    (data : GoogleSubData) (now : Int) (genId : String) (body : GoogleBody)
    (db : DB) (hcfg : googleAuthConfigured cfg = false) :
    (upsertGoogleNotification cfg data now genId body db).1 = db ∧
    (upsertGoogleNotification cfg data now genId body db).2.isSome = true := by
  unfold upsertGoogleNotification
  split
  · exact ⟨rfl, rfl⟩
  · rw [if_pos (by simp [hcfg])]
    exact ⟨rfl, rfl⟩

/-- C8 witness: a concrete well-formed webhook against an unconfigured
account errors and leaves the empty database unchanged. -/
theorem google_webhook_requires_credentials_witness :
    (upsertGoogleNotification cfgUnconfigured googleDataActive 1000 "gen1"
        googleBodyUnmapped dbEmpty).1 = dbEmpty ∧
    (upsertGoogleNotification cfgUnconfigured googleDataActive 1000 "gen1"
        googleBodyUnmapped dbEmpty).2.isSome = true :=
  google_webhook_requires_credentials cfgUnconfigured googleDataActive 1000
    "gen1" googleBodyUnmapped dbEmpty (by decide)

/-! ### C1: webhooks with an unresolved identity -/

/-- C1 counterexample: a Google webhook for an unmapped purchaseToken
raises no error and creates no entitlement, but — contrary to the claim —
persists no purchase-mapping row either: the mapping store stays empty,
because both mapping upserts return without writing when no identity is
resolved (the schema requires `npub` on mapping rows). -/
theorem google_unmapped_counterexample :
    (upsertGoogleNotification cfgConfigured googleDataActive 1000 "gen1"
        googleBodyUnmapped dbEmpty).2 = none ∧
    (upsertGoogleNotification cfgConfigured googleDataActive 1000 "gen1"
        googleBodyUnmapped dbEmpty).1.entitlements = [] ∧
    (upsertGoogleNotification cfgConfigured googleDataActive 1000 "gen1"
        googleBodyUnmapped dbEmpty).1.googlePurchases = [] := by
  refine ⟨by decide, by decide, by decide⟩

/-- C1 (amended): a processed Apple or Google webhook whose purchase
identifier resolves to no identity creates or mutates no purchase-mapping
row, creates or mutates no entitlement row, and raises no error: the whole
database is returned unchanged. -/
theorem unresolved_webhook_no_writes (cfg : GoogleConfig)
    (data : GoogleSubData) (now : Int) (genId : String) (body : GoogleBody)
    (db : DB) (appleBody : AppleBody) (decoded : AppleDecoded)
    (genId2 : String) (txInfo : AppleTransactionInfo) :
    (jsTruthyS body.packageName = true → jsTruthyS body.subscriptionId = true →
      jsTruthyS body.purchaseToken = true →
      googleAuthConfigured cfg = true →
      findNpubByPurchaseToken (body.purchaseToken.getD "") db = none →
      upsertGoogleNotification cfg data now genId body db = (db, none)) ∧
    (jsTruthyS appleBody.signedPayload = true →
      decoded.transactionInfo = some txInfo →
      findNpubByOriginalTxIdOrAccountToken txInfo.originalTransactionId
        txInfo.appAccountToken db = none →
      upsertAppleNotification appleBody decoded genId2 db = (db, none)) := by
  constructor
  · intro h1 h2 h3 h4 h5
    unfold upsertGoogleNotification
    rw [if_neg (by simp [h1, h2, h3]), if_neg (by simp [h4])]
    simp only [h5, upsertGooglePurchaseMapping]
  · intro h1 h2 h3
    unfold upsertAppleNotification
    rw [if_neg (by simp [h1])]
    simp only [h2, h3, upsertApplePurchaseMapping]

/-- C1 witness: the amended claim at the concrete unmapped Google webhook
and a concrete unmapped Apple notification against the empty database. -/
theorem unresolved_webhook_no_writes_witness :
    upsertGoogleNotification cfgConfigured googleDataActive 1000 "gen1"
      googleBodyUnmapped dbEmpty = (dbEmpty, none) ∧
    upsertAppleNotification appleBodySigned appleDecodedUnmapped "gen2"
      dbEmpty = (dbEmpty, none) :=
  ⟨(unresolved_webhook_no_writes cfgConfigured googleDataActive 1000 "gen1"
      googleBodyUnmapped dbEmpty appleBodySigned appleDecodedUnmapped "gen2"
      (appleDecodedUnmapped.transactionInfo.getD
        { originalTransactionId := "", productId := ""
          expiresDate := 0, appAccountToken := none })).1
    (by decide) (by decide) (by decide) (by decide) (by decide),
   (unresolved_webhook_no_writes cfgConfigured googleDataActive 1000 "gen1"
      googleBodyUnmapped dbEmpty appleBodySigned appleDecodedUnmapped "gen2"
      (appleDecodedUnmapped.transactionInfo.getD
        { originalTransactionId := "", productId := ""
          expiresDate := 0, appAccountToken := none })).2
    (by decide) (by decide) (by decide)⟩

/-! ### Trial provisioning: helper lemmas -/

/-- Lemma: `find?` looks past a prefix in which nothing matches. -/
theorem find?_append_of_none {α : Type} (p : α → Bool) (l1 l2 : List α)
    (h : l1.find? p = none) : (l1 ++ l2).find? p = l2.find? p := by
  induction l1 with
  | nil => rfl
  | cons a t ih =>
    cases ha : p a with
    | true =>
      rw [List.find?_cons_of_pos _ ha] at h
      exact absurd h (by simp)
    | false =>
      rw [List.find?_cons_of_neg _ (by simp [ha])] at h
      rw [List.cons_append, List.find?_cons_of_neg _ (by simp [ha])]
      exact ih h

/-- Updating the status of the trial row commutes with looking it up. -/
theorem find?_setTrialStatus (tid ns : String) (l : List Entitlement)
    (ex : Entitlement) (h : l.find? (fun e => e.id == tid) = some ex) :
    (setTrialStatus tid ns l).find? (fun e => e.id == tid) =
      some { ex with status := ns } := by
  induction l with
  | nil => simp at h
  | cons a t ih =>
    cases ha : (a.id == tid) with
    | true =>
      rw [List.find?_cons_of_pos _ (by simpa using ha)] at h
      injection h with h
      subst h
      simp only [setTrialStatus, List.map_cons]
      rw [if_pos ha]
      apply List.find?_cons_of_pos
      simpa using ha
    | false =>
      rw [List.find?_cons_of_neg _ (by simp [ha])] at h
      simp only [setTrialStatus, List.map_cons,
        if_neg (by simp [ha] : ¬ (a.id == tid) = true)]
      rw [List.find?_cons_of_neg _ (by simp [ha])]
      exact ih h

/-- The entitlement `ensureFreeTrialEntitlement` returns always carries the
deterministic trial id. -/
theorem ensureTrial_result_id (trialDays : Nat) (npub : String) (now : Int)
    (db : DB) :
    (ensureFreeTrialEntitlement trialDays npub now db).1.id =
      npub ++ "-trial" := by
  unfold ensureFreeTrialEntitlement
  cases hfind : db.entitlements.find? (fun e => e.id == npub ++ "-trial") with
  | none => simp [hfind]
  | some ex =>
    have hid : ex.id = npub ++ "-trial" := by
      have := List.find?_some hfind
      simpa using this
    simp only [hfind]
    split
    · simpa using hid
    · split
      · simpa using hid
      · simpa using hid

/-- After a run of `ensureFreeTrialEntitlement`, looking up the trial id in
the resulting store finds exactly the returned entitlement. -/
theorem ensureTrial_find_result (trialDays : Nat) (npub : String) (now : Int)
    (db : DB) :
    (ensureFreeTrialEntitlement trialDays npub now db).2.entitlements.find?
        (fun e => e.id == npub ++ "-trial") =
      some (ensureFreeTrialEntitlement trialDays npub now db).1 := by
  unfold ensureFreeTrialEntitlement
  cases hfind : db.entitlements.find? (fun e => e.id == npub ++ "-trial") with
  | none =>
    simp only [hfind]
    rw [find?_append_of_none _ _ _ hfind]
    simp
  | some ex =>
    simp only [hfind]
    split
    · exact find?_setTrialStatus _ _ _ _ hfind
    · split
      · exact find?_setTrialStatus _ _ _ _ hfind
      · exact hfind

/-- When the trial row is already present, `ensureFreeTrialEntitlement`
never changes its expiry. -/
theorem ensureTrial_expiresAt_of_found (trialDays : Nat) (npub : String)
    (now : Int) (db : DB) (ex : Entitlement)
    (hfind : db.entitlements.find? (fun e => e.id == npub ++ "-trial") =
      some ex) :
    (ensureFreeTrialEntitlement trialDays npub now db).1.expiresAt =
      ex.expiresAt := by
  unfold ensureFreeTrialEntitlement
  simp only [hfind]
  split
  · rfl
  · split
    · rfl
    · rfl

/-! ### C6: trial provisioning is idempotent -/

/-- C6: two successive `ensureTrial` calls at the same time both return the
entitlement with the deterministic id `npub ++ "-trial"`, and the second
call leaves `expiresAt` exactly as the first call returned it. -/
theorem ensureTrial_idempotent (trialDays : Nat) (npub : String) (now : Int)
    (db : DB) :
    (ensureFreeTrialEntitlement trialDays npub now db).1.id =
      npub ++ "-trial" ∧
    (ensureFreeTrialEntitlement trialDays npub now
        (ensureFreeTrialEntitlement trialDays npub now db).2).1.id =
      npub ++ "-trial" ∧
    (ensureFreeTrialEntitlement trialDays npub now
        (ensureFreeTrialEntitlement trialDays npub now db).2).1.expiresAt =
      (ensureFreeTrialEntitlement trialDays npub now db).1.expiresAt :=
  ⟨ensureTrial_result_id trialDays npub now db,
   ensureTrial_result_id trialDays npub now _,
   ensureTrial_expiresAt_of_found trialDays npub now _ _
     (ensureTrial_find_result trialDays npub now db)⟩

/-! ### C5: expiry is terminal -/

/-- A trial row that is already expired and lapsed stays expired on every
further `ensureFreeTrialEntitlement` run. -/
theorem ensureTrial_expired_stays (trialDays : Nat) (npub : String)
    (now2 : Int) (db2 : DB) (ex2 : Entitlement)
    (hfind : db2.entitlements.find? (fun e => e.id == npub ++ "-trial") =
      some ex2)
    (hst : ex2.status = "expired") (hexp : ex2.expiresAt ≤ now2) :
    (ensureFreeTrialEntitlement trialDays npub now2 db2).1.status =
      "expired" := by
  unfold ensureFreeTrialEntitlement
  simp only [hfind]
  rw [if_neg (fun hc => hc.2 hst)]
  rw [if_neg (fun hc => absurd hc.1 (not_lt.mpr hexp))]
  exact hst

/-- C5: when the stored trial row has lapsed (`expiresAt ≤ now`), the next
`ensureTrial` call returns it with status `expired`, and any later call at
a time `now2 ≥ now` still returns status `expired`: the expired state is
terminal and is never auto-resurrected. -/
theorem trial_expiry_terminal (trialDays : Nat) (npub : String)
    (now now2 : Int) (db : DB) (ex : Entitlement)
    (hfind : db.entitlements.find? (fun e => e.id == npub ++ "-trial") =
      some ex)
    (hexp : ex.expiresAt ≤ now) (hle : now ≤ now2) :
    (ensureFreeTrialEntitlement trialDays npub now db).1.status = "expired" ∧
    (ensureFreeTrialEntitlement trialDays npub now2
        (ensureFreeTrialEntitlement trialDays npub now db).2).1.status =
      "expired" := by
  have hstat1 :
      (ensureFreeTrialEntitlement trialDays npub now db).1.status =
        "expired" := by
    unfold ensureFreeTrialEntitlement
    simp only [hfind]
    split
    · rfl
    next hcond =>
      rw [if_neg (by
        intro hc
        exact absurd hc.1 (not_lt.mpr hexp))]
      by_cases hse : ex.status = "expired"
      · exact hse
      · exact absurd ⟨hexp, hse⟩ hcond
  refine ⟨hstat1, ?_⟩
  have hexp2 :
      (ensureFreeTrialEntitlement trialDays npub now db).1.expiresAt ≤ now2 :=
    le_trans (le_of_eq
      (ensureTrial_expiresAt_of_found trialDays npub now db ex hfind))
      (le_trans hexp hle)
  exact ensureTrial_expired_stays trialDays npub now2 _ _
    (ensureTrial_find_result trialDays npub now db) hstat1 hexp2

/-- A concrete lapsed trial row. -/
def trialLapsed : Entitlement :=
  { id := "n-trial", npub := "n", platform := "trial", productId := "trial"
    status := "active", expiresAt := 5, quotaBytes := 53687091200
    purchaseToken := none, originalTxId := none }

/-- A database holding only the lapsed trial row. -/
def dbTrialLapsed : DB :=
  { dbEmpty with users := ["n"], entitlements := [trialLapsed] }

/-- C5 witness: the lapsed concrete trial is marked expired at time 10 and
stays expired at time 20. -/
theorem trial_expiry_terminal_witness :
    (ensureFreeTrialEntitlement 30 "n" 10 dbTrialLapsed).1.status =
      "expired" ∧
    (ensureFreeTrialEntitlement 30 "n" 20
        (ensureFreeTrialEntitlement 30 "n" 10 dbTrialLapsed).2).1.status =
      "expired" :=
  trial_expiry_terminal 30 "n" 10 20 dbTrialLapsed trialLapsed (by decide)
    (by decide) (by decide)

/-! ### Authenticator: helper lemmas -/

/-- Deleting a key makes it unresolvable. -/
theorem storeGet_delete_self (store : ChallengeStore) (c : String) :
    storeGet (storeDelete store c) c = none := by
  have hfind : (storeDelete store c).find? (fun p => p.1 == c) = none := by
    rw [List.find?_eq_none]
    intro x hx
    have hx2 := List.of_mem_filter hx
    simp only [decide_eq_true_eq] at hx2
    simp [hx2]
  simp [storeGet, hfind]

/-- With duplicate-free keys, entries agreeing on the key are equal. -/
theorem nodup_keys_eq {l : List (String × Int)} {p q : String × Int}
    (hnd : (l.map Prod.fst).Nodup) (hp : p ∈ l) (hq : q ∈ l)
    (heq : p.1 = q.1) : p = q := by
  induction l with
  | nil => simp at hp
  | cons a t ih =>
    rw [List.map_cons, List.nodup_cons] at hnd
    rcases List.mem_cons.mp hp with hpa | hpt
    · rcases List.mem_cons.mp hq with hqa | hqt
      · rw [hpa, hqa]
      · exfalso
        subst hpa
        exact hnd.1 (heq ▸ List.mem_map_of_mem Prod.fst hqt)
    · rcases List.mem_cons.mp hq with hqa | hqt
      · exfalso
        subst hqa
        exact hnd.1 (heq ▸ List.mem_map_of_mem Prod.fst hpt)
      · exact ih hnd.2 hpt hqt

/-- Filtering by a weaker predicate keeps more of the list. -/
theorem filter_sublist_filter_of_imp {α : Type} (l : List α) (p q : α → Bool)
    (h : ∀ a ∈ l, p a = true → q a = true) :
    List.Sublist (l.filter p) (l.filter q) := by
  induction l with
  | nil => exact List.Sublist.refl _
  | cons a t ih =>
    have ht : ∀ x ∈ t, p x = true → q x = true := fun x hx =>
      h x (List.mem_cons_of_mem a hx)
    cases hp : p a with
    | true =>
      have hq := h a (List.mem_cons_self a t) hp
      rw [List.filter_cons_of_pos (by simp [hp]),
        List.filter_cons_of_pos (by simp [hq])]
      exact (ih ht).cons₂ a
    | false =>
      rw [List.filter_cons_of_neg (by simp [hp])]
      cases hq : q a with
      | true =>
        rw [List.filter_cons_of_pos (by simp [hq])]
        exact (ih ht).cons a
      | false =>
        rw [List.filter_cons_of_neg (by simp [hq])]
        exact ih ht

/-- The three ways a verification run can leave the store: untouched, one
expired challenge evicted, or (on success only) the presented challenge
consumed. -/
theorem verifyNip98_store_cases (now : Int) (req : Nip98Request)
    (store : ChallengeStore) :
    ((verifyNip98 now req store).1 = none ∧
      (verifyNip98 now req store).2 = store) ∨
    (∃ c exp, challengeParamOf req = some c ∧ storeGet store c = some exp ∧
      exp < now ∧ (verifyNip98 now req store).1 = none ∧
      (verifyNip98 now req store).2 = storeDelete store c) ∨
    (∃ c, challengeParamOf req = some c ∧
      (verifyNip98 now req store).1.isSome = true ∧
      (verifyNip98 now req store).2 = storeDelete store c) := by
  cases hre : req.event with
  | none =>
    left
    constructor <;> simp [verifyNip98, hre]
  | some ev =>
    cases hc : getParam ev.params "challenge" with
    | none =>
      left
      constructor <;> simp [verifyNip98, hre, hc]
    | some c =>
      by_cases he : c = ""
      · left
        constructor <;> simp [verifyNip98, hre, hc, he]
      · cases hg : storeGet store c with
        | none =>
          left
          constructor <;> simp [verifyNip98, hre, hc, he, hg]
        | some exp =>
          by_cases hlt : exp < now
          · right; left
            refine ⟨c, exp, ?_, hg, hlt, ?_, ?_⟩
            · simp [challengeParamOf, hre, hc]
            · simp [verifyNip98, hre, hc, he, hg, hlt]
            · simp [verifyNip98, hre, hc, he, hg, hlt]
          · by_cases hm : toUpperChars ((getParam ev.params "method").getD "") ≠
                req.method.data
            · left
              constructor <;> simp [verifyNip98, hre, hc, he, hg, hlt, hm]
            · by_cases hu : jsTruthyS (getParam ev.params "url") ∧
                  (getParam ev.params "url").getD "" ≠ req.routeUrl
              · left
                constructor <;> simp [verifyNip98, hre, hc, he, hg, hlt, hm, hu]
              · by_cases hb : jsTruthyS (getParam ev.params "body") ∧
                    (req.bodySha256 = none ∨
                      req.bodySha256 ≠ some ((getParam ev.params "body").getD ""))
                · left
                  constructor <;>
                    simp [verifyNip98, hre, hc, he, hg, hlt, hm, hu, hb]
                · by_cases hs : ev.sigValid = false
                  · left
                    constructor <;>
                      simp [verifyNip98, hre, hc, he, hg, hlt, hm, hu, hb, hs]
                  · right; right
                    refine ⟨c, ?_, ?_, ?_⟩
                    · simp [challengeParamOf, hre, hc]
                    · simp [verifyNip98, hre, hc, he, hg, hlt, hm, hu, hb, hs]
                    · simp [verifyNip98, hre, hc, he, hg, hlt, hm, hu, hb, hs]

/-- A request presenting a challenge that is absent from the store never
authenticates, and leaves the store unchanged. -/
theorem verifyNip98_absent_fails (now : Int) (req : Nip98Request)
    (store : ChallengeStore) (c : String)
    (hc : challengeParamOf req = some c)
    (habsent : storeGet store c = none) :
    verifyNip98 now req store = (none, store) := by
  unfold challengeParamOf at hc
  cases hre : req.event with
  | none => rw [hre] at hc; simp at hc
  | some ev =>
    rw [hre] at hc
    simp only [Option.some_bind] at hc
    by_cases he : c = ""
    · simp [verifyNip98, hre, hc, he]
    · simp [verifyNip98, hre, hc, he, habsent]

/-! ### C2: challenges are single use -/

/-- C2: when a verification with challenge token `c` succeeds, the token is
removed from the resulting store; and any verification attempt presenting
`c` against a store in which `c` is absent (in particular every later
attempt, until the token were freshly reissued) returns not authenticated. -/
theorem challenge_single_use (now now2 : Int) (req req2 : Nip98Request)
    (store store2 : ChallengeStore) (c : String)
    (hc : challengeParamOf req = some c)
    (hsucc : (verifyNip98 now req store).1.isSome = true)
    (hc2 : challengeParamOf req2 = some c)
    (habsent : storeGet store2 c = none) :
    storeGet (verifyNip98 now req store).2 c = none ∧
    (verifyNip98 now2 req2 store2).1 = none := by
  constructor
  · rcases verifyNip98_store_cases now req store with
      ⟨h1, _⟩ | ⟨d, exp, hd, _, _, h1, _⟩ | ⟨d, hd, _, hdel⟩
    · rw [h1] at hsucc; simp at hsucc
    · rw [h1] at hsucc; simp at hsucc
    · have hdc : d = c := by
        rw [hd] at hc
        injection hc
      subst hdc
      rw [hdel]
      exact storeGet_delete_self store d
  · have h := verifyNip98_absent_fails now2 req2 store2 c hc2 habsent
    rw [h]

/-- A concrete request that verifies: live challenge, matching method, no
url or body declaration, valid signature. -/
def reqSuccess : Nip98Request :=
  { event := some { pubkey := "ab"
                    params := [("challenge", "tok"), ("method", "get")]
                    sigValid := true }
    method := "GET"
    routeUrl := "/entitlement"
    bodySha256 := none }

/-- C2 witness: the concrete successful verification consumes "tok", and
re-presenting "tok" against the post-success store fails. -/
theorem challenge_single_use_witness :
    storeGet (verifyNip98 50 reqSuccess [("tok", 100)]).2 "tok" = none ∧
    (verifyNip98 60 reqSuccess
        (verifyNip98 50 reqSuccess [("tok", 100)]).2).1 = none :=
  challenge_single_use 50 60 reqSuccess reqSuccess [("tok", 100)]
    (verifyNip98 50 reqSuccess [("tok", 100)]).2 "tok" (by decide) (by decide)
    (by decide) (by decide)

/-! ### C7: failed verification never consumes a live challenge -/

/-- C7: a verification attempt that fails (for any reason: missing or
malformed credential, absent challenge value, unknown challenge, method,
url or body-hash mismatch, invalid signature) returns not authenticated
with no exception, and the resulting store is a sublist of the old one in
which every live (unexpired) entry survives: only entries already past
expiry can have been evicted. -/
theorem verify_failure_preserves_live (now : Int) (req : Nip98Request)
    (store : ChallengeStore) (hnd : (store.map Prod.fst).Nodup)
    (hfail : (verifyNip98 now req store).1 = none) :
    (verifyNip98 now req store).2.Sublist store ∧
    List.Sublist (store.filter (fun p => decide (now ≤ p.2)))
      (verifyNip98 now req store).2 := by
  rcases verifyNip98_store_cases now req store with
    ⟨h1, h2⟩ | ⟨c, exp, hc, hg, hlt, h1, h2⟩ | ⟨c, hc, hs, h2⟩
  · rw [h2]
    exact ⟨List.Sublist.refl _, List.filter_sublist _⟩
  · rw [h2]
    refine ⟨List.filter_sublist _, ?_⟩
    unfold storeDelete
    apply filter_sublist_filter_of_imp
    intro p hp hlive
    unfold storeGet at hg
    rcases Option.map_eq_some'.mp hg with ⟨q, hq, hq2⟩
    have hqmem : q ∈ store := List.mem_of_find?_eq_some hq
    have hqkey : q.1 = c := by
      have := List.find?_some hq
      simpa using this
    simp only [decide_eq_true_eq] at hlive ⊢
    intro hpc
    have hpq : p = q := nodup_keys_eq hnd hp hqmem (hpc.trans hqkey.symm)
    rw [hpq, hq2] at hlive
    exact absurd hlt (not_lt.mpr hlive)
  · rw [hfail] at hs
    simp at hs

/-- A concrete failing request: no credential at all. -/
def reqNoAuth : Nip98Request :=
  { event := none, method := "GET", routeUrl := "/entitlement"
    bodySha256 := none }

/-- C7 witness: the concrete failing attempt leaves the store a sublist of
itself with the live entry intact. -/
theorem verify_failure_preserves_live_witness :
    (verifyNip98 5 reqNoAuth ([("a", 10)] : ChallengeStore)).2.Sublist
      ([("a", 10)] : ChallengeStore) ∧
    List.Sublist
      (List.filter (fun p => decide ((5 : Int) ≤ p.2))
        ([("a", 10)] : ChallengeStore))
      (verifyNip98 5 reqNoAuth ([("a", 10)] : ChallengeStore)).2 :=
  verify_failure_preserves_live 5 reqNoAuth ([("a", 10)] : ChallengeStore)
    (by decide) (by decide)

/-! ### Resolver: helper lemmas -/

/-- Lemma: `maxByExpires` returns an element of the list. -/
theorem maxByExpires_mem (l : List Entitlement) (e : Entitlement)
    (h : maxByExpires l = some e) : e ∈ l := by
  induction l generalizing e with
  | nil => simp [maxByExpires] at h
  | cons a t ih =>
    rw [maxByExpires] at h
    cases hm : maxByExpires t with
    | none =>
      rw [hm] at h
      injection h with h
      subst h
      exact List.mem_cons_self a t
    | some m =>
      rw [hm] at h
      dsimp only at h
      by_cases hlt : a.expiresAt < m.expiresAt
      · rw [if_pos hlt] at h
        injection h with h
        subst h
        exact List.mem_cons_of_mem a (ih m hm)
      · rw [if_neg hlt] at h
        injection h with h
        subst h
        exact List.mem_cons_self a t

/-- Lemma: `maxByExpires` answers on every non-empty list. -/
theorem maxByExpires_isSome (l : List Entitlement) (hne : l ≠ []) :
    (maxByExpires l).isSome = true := by
  cases l with
  | nil => exact absurd rfl hne
  | cons a t =>
    rw [maxByExpires]
    cases hmt : maxByExpires t with
    | none => rfl
    | some m =>
      dsimp only
      by_cases hlt : a.expiresAt < m.expiresAt
      · rw [if_pos hlt]; rfl
      · rw [if_neg hlt]; rfl

/-- Lemma: `maxByExpires` returns an element with maximal expiry. -/
theorem maxByExpires_ge (l : List Entitlement) (e : Entitlement)
    (h : maxByExpires l = some e) :
    ∀ x ∈ l, x.expiresAt ≤ e.expiresAt := by
  induction l generalizing e with
  | nil => simp [maxByExpires] at h
  | cons a t ih =>
    rw [maxByExpires] at h
    intro x hx
    rcases List.mem_cons.mp hx with hxa | hxt
    · subst hxa
      cases hm : maxByExpires t with
      | none =>
        rw [hm] at h
        dsimp only at h
        injection h with h
        subst h
        exact le_refl _
      | some m =>
        rw [hm] at h
        dsimp only at h
        by_cases hlt : x.expiresAt < m.expiresAt
        · rw [if_pos hlt] at h
          injection h with h
          subst h
          exact le_of_lt hlt
        · rw [if_neg hlt] at h
          injection h with h
          subst h
          exact le_refl _
    · cases hm : maxByExpires t with
      | none =>
        exfalso
        have hne2 : t ≠ [] := by
          intro ht
          rw [ht] at hxt
          simp at hxt
        have hsome := maxByExpires_isSome t hne2
        rw [hm] at hsome
        simp at hsome
      | some m =>
        rw [hm] at h
        dsimp only at h
        have hxm := ih m hm x hxt
        by_cases hlt : a.expiresAt < m.expiresAt
        · rw [if_pos hlt] at h
          injection h with h
          subst h
          exact hxm
        · rw [if_neg hlt] at h
          injection h with h
          subst h
          exact le_trans hxm (not_lt.mp hlt)


/-- Lemma: `activeFilter` decoded into propositional form. -/
theorem activeFilter_iff (npub : String) (now : Int) (e : Entitlement) :
    activeFilter npub now e = true ↔
      e.npub = npub ∧ (e.status = "active" ∨ e.status = "grace") ∧
        now < e.expiresAt := by
  simp [activeFilter, isActiveOrGrace, Bool.and_eq_true, Bool.or_eq_true,
    and_assoc]

/-! ### C3: the resolver prefers live active/grace entitlements -/

/-- C3: whenever some stored entitlement of the identity has status active
or grace and expiry strictly after `now`, the resolver returns such an
entitlement — one with the latest expiry among them — and never anything
outside that set. -/
theorem resolve_prefers_active (trialEnabled : Bool) (trialDays : Nat)
    (npub : String) (now : Int) (db : DB) (w : Entitlement)
    (hw : w ∈ db.entitlements) (hwn : w.npub = npub)
    (hws : w.status = "active" ∨ w.status = "grace")
    (hwt : now < w.expiresAt) :
    ∃ r, (getEntitlementForNpub trialEnabled trialDays npub now db).1 = some r ∧
      r ∈ db.entitlements ∧ r.npub = npub ∧
      (r.status = "active" ∨ r.status = "grace") ∧ now < r.expiresAt ∧
      ∀ e ∈ db.entitlements, e.npub = npub →
        (e.status = "active" ∨ e.status = "grace") → now < e.expiresAt →
        e.expiresAt ≤ r.expiresAt := by
  have hwf : w ∈ db.entitlements.filter (activeFilter npub now) :=
    List.mem_filter.mpr ⟨hw, (activeFilter_iff npub now w).mpr ⟨hwn, hws, hwt⟩⟩
  have hne : db.entitlements.filter (activeFilter npub now) ≠ [] := by
    intro hnil
    rw [hnil] at hwf
    simp at hwf
  have hsome := maxByExpires_isSome _ hne
  rcases Option.isSome_iff_exists.mp hsome with ⟨r, hr⟩
  have hrf := maxByExpires_mem _ _ hr
  have hrmem := List.mem_filter.mp hrf
  have hrprops := (activeFilter_iff npub now r).mp hrmem.2
  refine ⟨r, ?_, hrmem.1, hrprops.1, hrprops.2.1, hrprops.2.2, ?_⟩
  · unfold getEntitlementForNpub
    rw [hr]
  · intro e he hen hes het
    exact maxByExpires_ge _ _ hr e
      (List.mem_filter.mpr ⟨he, (activeFilter_iff npub now e).mpr ⟨hen, hes, het⟩⟩)

/-- A concrete live active entitlement. -/
def entActive : Entitlement :=
  { id := "e-active", npub := "n1", platform := "ios"
    productId := "pro-monthly", status := "active", expiresAt := 100
    quotaBytes := 214748364800, purchaseToken := none
    originalTxId := some "otx" }

/-- A database holding only the live active entitlement. -/
def dbActive : DB :=
  { dbEmpty with users := ["n1"], entitlements := [entActive] }

/-- C3 witness: on the concrete database, the resolver returns exactly the
live active entitlement. -/
theorem resolve_prefers_active_witness :
    (getEntitlementForNpub false 30 "n1" 0 dbActive).1 = some entActive := by
  obtain ⟨r, hr, hrmem, -, -, -, -⟩ :=
    resolve_prefers_active false 30 "n1" 0 dbActive entActive
      (by decide) (by decide) (Or.inl (by decide)) (by decide)
  have : r = entActive := by
    have := hrmem
    simp [dbActive, dbEmpty] at this
    exact this
  rw [hr, this]

/-! ### C9: the "none" entitlement response -/

/-- C9: when the resolver yields no entitlement for the authenticated
identity, the entitlement endpoint answers with the literal status "none"
— a value outside the entitlement status enumeration — together with a
null plan, a null expiry, and the quota string "0". -/
theorem entitlement_none_response (trialEnabled : Bool) (trialDays : Nat)
    (npub : String) (now : Int) (db : DB)
    (h : (getEntitlementForNpub trialEnabled trialDays npub now
        (ensureUserExists npub db)).1 = none) :
    (entitlementHandler trialEnabled trialDays npub now db).1.status =
      "none" ∧
    (entitlementHandler trialEnabled trialDays npub now db).1.plan = none ∧
    (entitlementHandler trialEnabled trialDays npub now db).1.expiresAt =
      none ∧
    (entitlementHandler trialEnabled trialDays npub now db).1.quotaBytes =
      "0" ∧
    "none" ∉ statusEnum := by
  refine ⟨?_, ?_, ?_, ?_, by decide⟩ <;>
    simp [entitlementHandler, h]

/-- C9 witness: a fresh identity on the empty database with the trial
policy disabled resolves to nothing and receives the "none" response. -/
theorem entitlement_none_response_witness :
    (entitlementHandler false 30 "u1" 0 dbEmpty).1.status = "none" ∧
    (entitlementHandler false 30 "u1" 0 dbEmpty).1.plan = none ∧
    (entitlementHandler false 30 "u1" 0 dbEmpty).1.expiresAt = none ∧
    (entitlementHandler false 30 "u1" 0 dbEmpty).1.quotaBytes = "0" ∧
    "none" ∉ statusEnum :=
  entitlement_none_response false 30 "u1" 0 dbEmpty (by decide)

/-! ### C10: the presign payment gate -/

/-- C10: with a valid request body, the presign-upload endpoint answers
PaymentRequired exactly when the resolved entitlement is absent or has
status expired, canceled or paused; otherwise — in particular for status
pending, active or grace, with no condition on `expiresAt` — it produces a
presigned upload for the object key. -/
theorem presign_upload_gate (trialEnabled : Bool) (trialDays : Nat)
    (npub : String) (filename contentType : Option String)
    (sizeBytes : Option Int) (now : Int) (db : DB)
    (hf : jsTruthyS filename = true) (hct : jsTruthyS contentType = true)
    (hsz : sizeBytes ≠ none) :
    ((presignUploadHandler trialEnabled trialDays npub filename contentType
        sizeBytes now db).1 =
        PresignResult.paymentRequired "No active subscription" ↔
      presignRejects
        (getEntitlementForNpub trialEnabled trialDays npub now db).1 =
          true) ∧
    (presignRejects
        (getEntitlementForNpub trialEnabled trialDays npub now db).1 =
          false →
      (presignUploadHandler trialEnabled trialDays npub filename contentType
          sizeBytes now db).1 =
        PresignResult.ok
          ("videos/" ++ npub ++ "/" ++ toString now ++ "/" ++
            filename.getD "")) ∧
    (presignRejects
        (getEntitlementForNpub trialEnabled trialDays npub now db).1 =
          true ↔
      ((getEntitlementForNpub trialEnabled trialDays npub now db).1 = none ∨
        ∃ e, (getEntitlementForNpub trialEnabled trialDays npub now db).1 =
            some e ∧
          (e.status = "expired" ∨ e.status = "canceled" ∨
            e.status = "paused"))) := by
  have hbody : ¬ (¬ jsTruthyS filename ∨ ¬ jsTruthyS contentType ∨
      sizeBytes = none) := by
    simp [hf, hct, hsz]
  refine ⟨?_, ?_, ?_⟩
  · unfold presignUploadHandler
    rw [if_neg hbody]
    cases hrej : presignRejects
        (getEntitlementForNpub trialEnabled trialDays npub now db).1 with
    | true => simp [hrej]
    | false => simp [hrej]
  · intro hrej
    unfold presignUploadHandler
    rw [if_neg hbody]
    simp [hrej]
  · cases hent : (getEntitlementForNpub trialEnabled trialDays npub now db).1
        with
    | none => simp [presignRejects]
    | some e => simp [presignRejects, rejectedStatuses]

/-- A concrete entitlement with status expired. -/
def entExpired : Entitlement :=
  { id := "e-exp", npub := "npub1w", platform := "ios"
    productId := "pro-monthly", status := "expired", expiresAt := 500
    quotaBytes := 214748364800, purchaseToken := none
    originalTxId := some "otx2" }

/-- A database holding only the expired entitlement. -/
def dbExpired : DB :=
  { dbEmpty with users := ["npub1w"], entitlements := [entExpired] }

/-- A concrete entitlement with status pending. -/
def entPending : Entitlement :=
  { id := "e-pend", npub := "npub1w", platform := "android"
    productId := "pro_monthly", status := "pending", expiresAt := 5000
    quotaBytes := 214748364800, purchaseToken := some "tok-9"
    originalTxId := none }

/-- A database holding only the pending entitlement. -/
def dbPending : DB :=
  { dbEmpty with users := ["npub1w"], entitlements := [entPending] }

/-- C10 witness: on a concrete expired entitlement the endpoint answers
PaymentRequired; on a concrete pending entitlement it accepts and produces
a presigned upload. -/
theorem presign_upload_gate_witness :
    (presignUploadHandler false 30 "npub1w" (some "clip.mp4")
        (some "video/mp4") (some 2048) 1000 dbExpired).1 =
      PresignResult.paymentRequired "No active subscription" ∧
    (presignUploadHandler false 30 "npub1w" (some "clip.mp4")
        (some "video/mp4") (some 2048) 1000 dbPending).1.isAccepted =
      true := by
  constructor
  · exact (presign_upload_gate false 30 "npub1w" (some "clip.mp4")
      (some "video/mp4") (some 2048) 1000 dbExpired (by decide) (by decide)
      (by simp)).1.mpr (by decide)
  · have h := (presign_upload_gate false 30 "npub1w" (some "clip.mp4")
      (some "video/mp4") (some 2048) 1000 dbPending (by decide) (by decide)
      (by simp)).2.1 (by decide)
    rw [h]
    rfl

end MyTube
